import Mathlib

/-!
Verification development for the roommate task-distribution service
(`src/app.py`).  The engine state is the module-level globals
`roommates`, `tasks` and `task_assignments`; the operations embedded
here are `assign_tasks` (the rotation), `is_saturday` (the scheduler
trigger), one wake cycle of `check_saturday_and_update_tasks`,
`get_tasks` (the query projection) and `add_roommate`.

Python integers are modelled as `Int`; Python `%` on a positive modulus
agrees with `Int.emod` (both return a value in `[0, modulus)`), and
`% 0`, which raises `ZeroDivisionError` in Python, is modelled as an
explicit error.  Python dicts keep insertion order: they are modelled
as association lists where updating an existing key rewrites it in
place and a new key is appended at the end.  Exceptions are modelled
with explicit error results; an operation that mutates the globals
before raising returns the partially-updated state together with the
error, exactly as the surviving Python globals would read.
-/

set_option autoImplicit false

namespace TaskBackend

/-- Python class `Roommate(BaseModel)`: `id : int`, `name : str`. -/
structure Roommate where
  id : Int
  name : String
  deriving DecidableEq, Repr

/-- Python class `Task(BaseModel)`: `id : int`, `name : str`,
`description : Optional[str]`. -/
structure Task where
  id : Int
  name : String
  description : Option String
  deriving DecidableEq, Repr

/-- Python exceptions that the embedded operations can raise. -/
inductive PyError where
  /-- `KeyError` from `current_assignments[roommate.id]`. -/
  | keyError (k : Int)
  /-- `ZeroDivisionError` from `% len(tasks)` when the task list is empty. -/
  | zeroDivisionError
  /-- `StopIteration` from `next(...)` when no task matches the assigned id. -/
  | stopIteration
  deriving DecidableEq, Repr

/-- Errors surfaced by the HTTP endpoints: a deliberate
`HTTPException(status_code, detail)` or an uncaught Python exception. -/
inductive ApiError where
  | httpException (statusCode : Nat) (detail : String)
  | internal (e : PyError)
  deriving DecidableEq, Repr

/-- Python dict lookup `d[k]` on an insertion-ordered association list:
the first pair with the matching key (keys are unique because
`dictInsert` rewrites in place). `none` models a `KeyError`. -/
def dictLookup {α β : Type} [DecidableEq α] (d : List (α × β)) (k : α) : Option β :=
  match d with
  | [] => none
  | (k2, v) :: rest => if k2 = k then some v else dictLookup rest k

/-- Python dict assignment `d[k] = v`: rewrite the key in place if
present, otherwise append the new pair at the end. -/
def dictInsert {α β : Type} [DecidableEq α] (d : List (α × β)) (k : α) (v : β) :
    List (α × β) :=
  match d with
  | [] => [(k, v)]
  | (k2, v2) :: rest => if k2 = k then (k, v) :: rest else (k2, v2) :: dictInsert rest k v

/-- The module-level mutable globals of `app.py`: `roommates`, `tasks`
and `task_assignments` (roommate id → task id). -/
structure AppState where
  roommates : List Roommate
  tasks : List Task
  task_assignments : List (Int × Int)
  deriving DecidableEq, Repr

/-- The `for roommate in roommates` loop of `assign_tasks`
(src/app.py lines 75-86).  `snapshot` is the copy
`current_assignments` taken before the loop, `ntasks` is `len(tasks)`,
and `table` is the live `task_assignments` dict being written.  Each
iteration computes

  * `(roommate.id - 1) % len(tasks) + 1` when the snapshot is empty
    (first-time assignment), or
  * `current_assignments[roommate.id] % len(tasks) + 1` otherwise,

and writes it into the live dict.  A missing snapshot key raises
`KeyError` and `% 0` raises `ZeroDivisionError`; either aborts the
loop, leaving the writes made so far in place. -/
def assignLoop (snapshot : List (Int × Int)) (ntasks : Nat) :
    List Roommate → List (Int × Int) → List (Int × Int) × Option PyError
  | [], table => (table, none)
  | r :: rest, table =>
    if snapshot.isEmpty then
      if ntasks = 0 then
        (table, some PyError.zeroDivisionError)
      else
        assignLoop snapshot ntasks rest
          (dictInsert table r.id ((r.id - 1) % (ntasks : Int) + 1))
    else
      match dictLookup snapshot r.id with
      | none => (table, some (PyError.keyError r.id))
      | some cur =>
        if ntasks = 0 then
          (table, some PyError.zeroDivisionError)
        else
          assignLoop snapshot ntasks rest
            (dictInsert table r.id (cur % (ntasks : Int) + 1))

/-- Python `assign_tasks()` (src/app.py lines 64-88): snapshot the
current assignments, then rotate every roommate in roster order.
Returns the new state (with `task_assignments` updated as far as the
loop got) and the exception, if one was raised. -/
def assign_tasks (s : AppState) : AppState × Option PyError :=
  let result := assignLoop s.task_assignments s.tasks.length s.roommates s.task_assignments
  ({ s with task_assignments := result.1 }, result.2)

/-- Day count of the injected clock, in proleptic-Gregorian ordinal
days as used by Python's `datetime` (ordinal 1 = January 1 of year 1,
a Monday). -/
def pyWeekday (ordinal : Nat) : Nat :=
  (ordinal + 6) % 7

/-- Python `is_saturday()` (src/app.py lines 90-92):
`datetime.now().weekday() == 5`, with the wall clock injected as the
ordinal day so the predicate can be evaluated at any date. -/
def is_saturday (ordinal : Nat) : Bool :=
  pyWeekday ordinal == 5

/-- One wake cycle of the background loop
`check_saturday_and_update_tasks` (src/app.py lines 98-107): inside
`try`, check the trigger and rotate when it fires, then sleep 3600
seconds; `except Exception` catches any raised error, logs it and
sleeps 60 seconds instead.  Returns the state after the cycle (the
partially-updated globals survive a caught exception) and the number
of seconds slept before the next check. -/
def check_saturday_and_update_tasks_cycle (today : Nat) (s : AppState) : AppState × Nat :=
  if is_saturday today then
    let result := assign_tasks s
    match result.2 with
    | none => (result.1, 3600)
    | some _ => (result.1, 60)
  else
    (s, 3600)

/-- The scheduler's `while True` loop run for finitely many wake
cycles, one per listed day: each cycle feeds its resulting state to
the next check. -/
def scheduler_steps (days : List Nat) (s : AppState) : AppState :=
  match days with
  | [] => s
  | d :: rest => scheduler_steps rest (check_saturday_and_update_tasks_cycle d s).1

/-- Python `next(task for task in tasks if task.id == tid)`: the first
task with the given id; `none` models the `StopIteration` raised when
the generator is exhausted. -/
def findTask (ts : List Task) (tid : Int) : Option Task :=
  match ts with
  | [] => none
  | t :: rest => if t.id = tid then some t else findTask rest tid

/-- The dict comprehension of `get_tasks` (src/app.py lines 129-135),
iterating the roster in order and accumulating the
`roommate.name -> (task name, task description)` dict.  For each
roommate, `task_assignments[roommate.id]` may raise `KeyError`, and
`next(...)` raises `StopIteration` when no task has the assigned id;
either aborts the whole request. -/
def getTasksLoop (s : AppState) :
    List Roommate → List (String × String × Option String) →
    Except PyError (List (String × String × Option String))
  | [], acc => Except.ok acc
  | r :: rest, acc =>
    match dictLookup s.task_assignments r.id with
    | none => Except.error (PyError.keyError r.id)
    | some tid =>
      match findTask s.tasks tid with
      | none => Except.error PyError.stopIteration
      | some t => getTasksLoop s rest (dictInsert acc r.name (t.name, t.description))

/-- Python `get_tasks()` (src/app.py lines 126-135): project the
assignment table through the roster into name → task details, failing
on a missing table entry or a dangling task id. -/
def get_tasks (s : AppState) : Except PyError (List (String × String × Option String)) :=
  getTasksLoop s s.roommates []

/-- Python `add_roommate` (src/app.py lines 146-153): reject a
duplicate roommate id with `HTTPException(400, ...)` before touching
any state; otherwise append the roommate and run `assign_tasks()`
(whose exception, if any, escapes as an internal error after the
mutations it made). -/
def add_roommate (s : AppState) (rm : Roommate) : AppState × Option ApiError :=
  if s.roommates.any (fun r => r.id == rm.id) then
    (s, some (ApiError.httpException 400 "Roommate ID already exists"))
  else
    let s1 : AppState := { s with roommates := s.roommates ++ [rm] }
    let result := assign_tasks s1
    (result.1, result.2.map ApiError.internal)

/-- Python `add_task` (src/app.py lines 156-162): reject a duplicate
task id with `HTTPException(400, ...)`; otherwise append the task and
run `assign_tasks()`. -/
def add_task (s : AppState) (t : Task) : AppState × Option ApiError :=
  if s.tasks.any (fun t2 => t2.id == t.id) then
    (s, some (ApiError.httpException 400 "Task ID already exists"))
  else
    let s1 : AppState := { s with tasks := s.tasks ++ [t] }
    let result := assign_tasks s1
    (result.1, result.2.map ApiError.internal)

/-- The initial `roommates` list of src/app.py lines 41-47. -/
def initialRoommates : List Roommate :=
  [⟨1, "Mithilesh"⟩, ⟨2, "Krushna"⟩, ⟨3, "Siddant"⟩, ⟨4, "Prajwal"⟩, ⟨5, "Sanket"⟩]

/-- The initial `tasks` list of src/app.py lines 49-55. -/
def initialTasks : List Task :=
  [⟨1, "Balcony", some "Clean Appliance, Dusting, Mopping"⟩,
   ⟨2, "Bathroom", some "Clean bathroom, restock supplies"⟩,
   ⟨3, "washroom", some "Clean washroom, restock supplies"⟩,
   ⟨4, "kitchen", some "cleaning kitchen, Dusitng, Mopping"⟩,
   ⟨5, "Basin+Floor", some "Wash basin + floor"⟩]

/-- The module state right after the definitions: five roommates, five
tasks, empty assignment table. -/
def initialState : AppState :=
  { roommates := initialRoommates, tasks := initialTasks, task_assignments := [] }

/-- The state after the module-level `assign_tasks()` call at
src/app.py line 95, i.e. the state the server starts serving from. -/
def startupState : AppState :=
  (assign_tasks initialState).1

/-! Helper lemmas about the dict model. -/

theorem dictLookup_dictInsert_self {α β : Type} [DecidableEq α]
    (d : List (α × β)) (k : α) (v : β) :
    dictLookup (dictInsert d k v) k = some v := by
  induction d with
  | nil => simp [dictInsert, dictLookup]
  | cons p rest ih =>
    obtain ⟨k2, v2⟩ := p
    by_cases h : k2 = k
    · simp [dictInsert, dictLookup, h]
    · simp [dictInsert, dictLookup, h, ih]

theorem dictLookup_dictInsert_ne {α β : Type} [DecidableEq α]
    (d : List (α × β)) (k k2 : α) (v : β) (h : k ≠ k2) :
    dictLookup (dictInsert d k v) k2 = dictLookup d k2 := by
  induction d with
  | nil => simp [dictInsert, dictLookup, h]
  | cons p rest ih =>
    obtain ⟨k3, v3⟩ := p
    by_cases h3 : k3 = k
    · subst h3
      simp [dictInsert, dictLookup, h]
    · simp [dictInsert, dictLookup, h3, ih]

theorem dictLookup_isEmpty_false {α β : Type} [DecidableEq α]
    (d : List (α × β)) (k : α) (v : β) (h : dictLookup d k = some v) :
    d.isEmpty = false := by
  cases d with
  | nil => simp [dictLookup] at h
  | cons p rest => simp [List.isEmpty]

/-- Bounds of the rotation formula: for a non-empty task list,
`x % len(tasks) + 1` lies in `1 .. len(tasks)` (Python `%` on a
positive modulus, i.e. `Int.emod`, is non-negative and below the
modulus). -/
theorem emod_succ_bounds (a : Int) (n : Nat) (hn : n ≠ 0) :
    1 ≤ a % (n : Int) + 1 ∧ a % (n : Int) + 1 ≤ (n : Int) := by
  have h0 : (0 : Int) < (n : Int) := by exact_mod_cast Nat.pos_of_ne_zero hn
  have h1 : (0 : Int) ≤ a % (n : Int) := Int.emod_nonneg a (by omega)
  have h2 : a % (n : Int) < (n : Int) := Int.emod_lt_of_pos a h0
  omega

/-! Helper lemmas about the rotation loop. -/

/-- With a non-empty snapshot, once the live table holds the rotated
value for a key that the snapshot maps to `t`, the rest of the loop
keeps it there: later iterations either stop, rewrite the same key
with the same snapshot-derived value, or touch other keys. -/
theorem assignLoop_stable_of_entry (snapshot : List (Int × Int)) (ntasks : Nat)
    (hs : snapshot.isEmpty = false) (k t : Int)
    (hk : dictLookup snapshot k = some t) :
    ∀ (rs : List Roommate) (table : List (Int × Int)),
    dictLookup table k = some (t % (ntasks : Int) + 1) →
    dictLookup (assignLoop snapshot ntasks rs table).1 k = some (t % (ntasks : Int) + 1) := by
  intro rs
  induction rs with
  | nil => intro table ht; simpa [assignLoop] using ht
  | cons r rest ih =>
    intro table ht
    simp only [assignLoop, hs]
    cases hcur : dictLookup snapshot r.id with
    | none => simpa using ht
    | some cur =>
      by_cases hn : ntasks = 0
      · simpa [hn] using ht
      · simp only [hn, if_false]
        apply ih
        by_cases hrk : r.id = k
        · subst hrk
          rw [hk] at hcur
          cases hcur
          exact dictLookup_dictInsert_self table r.id _
        · rw [dictLookup_dictInsert_ne table r.id k _ hrk]
          exact ht

/-- With an empty snapshot, once the live table holds the first-time
value `(k - 1) % len(tasks) + 1` for a key, the rest of the loop keeps
it there. -/
theorem assignLoop_stable_of_entry_empty (snapshot : List (Int × Int)) (ntasks : Nat)
    (hs : snapshot.isEmpty = true) (k : Int) :
    ∀ (rs : List Roommate) (table : List (Int × Int)),
    dictLookup table k = some ((k - 1) % (ntasks : Int) + 1) →
    dictLookup (assignLoop snapshot ntasks rs table).1 k
      = some ((k - 1) % (ntasks : Int) + 1) := by
  intro rs
  induction rs with
  | nil => intro table ht; simpa [assignLoop] using ht
  | cons r rest ih =>
    intro table ht
    simp only [assignLoop, hs]
    by_cases hn : ntasks = 0
    · simpa [hn] using ht
    · simp only [hn, if_false, if_true]
      apply ih
      by_cases hrk : r.id = k
      · subst hrk
        exact dictLookup_dictInsert_self table r.id _
      · rw [dictLookup_dictInsert_ne table r.id k _ hrk]
        exact ht

/-- With a non-empty snapshot and a non-empty task list, the loop
reaches any roster member all of whose predecessors have snapshot
entries, and writes that member's rotated task id
`snapshot[id] % len(tasks) + 1`, which then persists to the end. -/
theorem assignLoop_entry_rotated (snapshot : List (Int × Int)) (ntasks : Nat)
    (hs : snapshot.isEmpty = false) (hn : ntasks ≠ 0) :
    ∀ (pre : List Roommate) (r : Roommate) (post : List Roommate)
      (t : Int) (table : List (Int × Int)),
    (∀ p ∈ pre, (dictLookup snapshot p.id).isSome) →
    dictLookup snapshot r.id = some t →
    dictLookup (assignLoop snapshot ntasks (pre ++ r :: post) table).1 r.id
      = some (t % (ntasks : Int) + 1) := by
  intro pre
  induction pre with
  | nil =>
    intro r post t table _ hr
    simp only [List.nil_append, assignLoop, hs, hr, hn, if_false]
    exact assignLoop_stable_of_entry snapshot ntasks hs r.id t hr post _
      (dictLookup_dictInsert_self table r.id _)
  | cons p pre ih =>
    intro r post t table hpre hr
    obtain ⟨c, hc⟩ := Option.isSome_iff_exists.mp (hpre p (List.mem_cons_self p pre))
    simp only [List.cons_append, assignLoop, hs, hc, hn, if_false]
    exact ih r post t _ (fun q hq => hpre q (List.mem_cons_of_mem p hq)) hr

/-- With an empty snapshot and a non-empty task list, every roster
member receives the first-time task id `(id - 1) % len(tasks) + 1`. -/
theorem assignLoop_first_assignment (snapshot : List (Int × Int)) (ntasks : Nat)
    (hs : snapshot.isEmpty = true) (hn : ntasks ≠ 0) :
    ∀ (rs : List Roommate) (r : Roommate) (table : List (Int × Int)), r ∈ rs →
    dictLookup (assignLoop snapshot ntasks rs table).1 r.id
      = some ((r.id - 1) % (ntasks : Int) + 1) := by
  intro rs
  induction rs with
  | nil => intro r table hr; cases hr
  | cons r2 rest ih =>
    intro r table hr
    simp only [assignLoop, hs, hn, if_false, if_true]
    rcases List.mem_cons.mp hr with hhead | htail
    · subst hhead
      exact assignLoop_stable_of_entry_empty snapshot ntasks hs r.id rest _
        (dictLookup_dictInsert_self table r.id _)
    · exact ih r _ htail

/-- With a non-empty snapshot and a non-empty task list, the loop dies
with `KeyError` at the first roster member missing from the snapshot,
and never creates an entry for that member. -/
theorem assignLoop_keyError (snapshot : List (Int × Int)) (ntasks : Nat)
    (hs : snapshot.isEmpty = false) (hn : ntasks ≠ 0) :
    ∀ (pre : List Roommate) (x : Roommate) (post : List Roommate)
      (table : List (Int × Int)),
    (∀ p ∈ pre, (dictLookup snapshot p.id).isSome) →
    dictLookup snapshot x.id = none →
    (assignLoop snapshot ntasks (pre ++ x :: post) table).2
      = some (PyError.keyError x.id) ∧
    (dictLookup table x.id = none →
      dictLookup (assignLoop snapshot ntasks (pre ++ x :: post) table).1 x.id = none) := by
  intro pre
  induction pre with
  | nil =>
    intro x post table _ hx
    simp only [List.nil_append, assignLoop, hs, hx]
    exact ⟨rfl, fun h => h⟩
  | cons p pre ih =>
    intro x post table hpre hx
    obtain ⟨c, hc⟩ := Option.isSome_iff_exists.mp (hpre p (List.mem_cons_self p pre))
    have hne : p.id ≠ x.id := by
      intro he
      rw [he, hx] at hc
      cases hc
    simp only [List.cons_append, assignLoop, hs, hc, hn, if_false]
    have hrest := ih x post (dictInsert table p.id (c % (ntasks : Int) + 1))
      (fun q hq => hpre q (List.mem_cons_of_mem p hq)) hx
    refine ⟨hrest.1, fun h => hrest.2 ?_⟩
    rw [dictLookup_dictInsert_ne table p.id x.id _ hne]
    exact h

/-- Once the live table holds some value in `1 .. len(tasks)` for a
key, the rest of the loop keeps some value in that range there: every
value the loop ever writes has the form `_ % len(tasks) + 1` and the
loop only writes when `len(tasks) ≠ 0`. -/
theorem assignLoop_preserves_inRange (snapshot : List (Int × Int)) (ntasks : Nat)
    (k : Int) :
    ∀ (rs : List Roommate) (table : List (Int × Int)),
    (∃ v, dictLookup table k = some v ∧ 1 ≤ v ∧ v ≤ (ntasks : Int)) →
    ∃ v, dictLookup (assignLoop snapshot ntasks rs table).1 k = some v ∧
      1 ≤ v ∧ v ≤ (ntasks : Int) := by
  intro rs
  induction rs with
  | nil => intro table ht; simpa [assignLoop] using ht
  | cons r rest ih =>
    intro table ht
    by_cases hs : snapshot.isEmpty
    · by_cases hn : ntasks = 0
      · simpa [assignLoop, hs, hn] using ht
      · simp only [assignLoop, hs, hn, if_false, if_true]
        apply ih
        by_cases hrk : r.id = k
        · subst hrk
          refine ⟨(r.id - 1) % (ntasks : Int) + 1, dictLookup_dictInsert_self table r.id _, ?_⟩
          exact emod_succ_bounds (r.id - 1) ntasks hn
        · rw [dictLookup_dictInsert_ne table r.id k _ hrk]
          exact ht
    · rw [Bool.not_eq_true] at hs
      simp only [assignLoop, hs]
      cases hcur : dictLookup snapshot r.id with
      | none => simpa using ht
      | some cur =>
        by_cases hn : ntasks = 0
        · simpa [hn] using ht
        · simp only [hn, if_false]
          apply ih
          by_cases hrk : r.id = k
          · subst hrk
            refine ⟨cur % (ntasks : Int) + 1, dictLookup_dictInsert_self table r.id _, ?_⟩
            exact emod_succ_bounds cur ntasks hn
          · rw [dictLookup_dictInsert_ne table r.id k _ hrk]
            exact ht

/-- When the loop finishes without an exception, every roster member
has an entry whose value lies in `1 .. len(tasks)`. -/
theorem assignLoop_ok_covers (snapshot : List (Int × Int)) (ntasks : Nat) :
    ∀ (rs : List Roommate) (table : List (Int × Int)),
    (assignLoop snapshot ntasks rs table).2 = none →
    ∀ r ∈ rs,
    ∃ v, dictLookup (assignLoop snapshot ntasks rs table).1 r.id = some v ∧
      1 ≤ v ∧ v ≤ (ntasks : Int) := by
  intro rs
  induction rs with
  | nil => intro table _ r hr; cases hr
  | cons r2 rest ih =>
    intro table hok r hr
    by_cases hs : snapshot.isEmpty
    · by_cases hn : ntasks = 0
      · simp [assignLoop, hs, hn] at hok
      · simp only [assignLoop, hs, hn, if_false, if_true] at hok ⊢
        rcases List.mem_cons.mp hr with hhead | htail
        · subst hhead
          apply assignLoop_preserves_inRange
          refine ⟨(r.id - 1) % (ntasks : Int) + 1, dictLookup_dictInsert_self table r.id _, ?_⟩
          exact emod_succ_bounds (r.id - 1) ntasks hn
        · exact ih _ hok r htail
    · rw [Bool.not_eq_true] at hs
      simp only [assignLoop, hs] at hok ⊢
      cases hcur : dictLookup snapshot r2.id with
      | none => rw [hcur] at hok; simp at hok
      | some cur =>
        rw [hcur] at hok
        by_cases hn : ntasks = 0
        · simp [hn] at hok
        · simp [hn] at hok ⊢
          rcases List.mem_cons.mp hr with hhead | htail
          · subst hhead
            apply assignLoop_preserves_inRange
            refine ⟨cur % (ntasks : Int) + 1, dictLookup_dictInsert_self table r.id _, ?_⟩
            exact emod_succ_bounds cur ntasks hn
          · exact ih _ hok r htail

/-- In a task list whose ids are exactly `1 .. len(tasks)` position by
position, every id in that range is the id of some task in the list. -/
theorem mem_of_contiguous_ids (ts : List Task)
    (hids : ∀ (i : Nat) (h : i < ts.length), (ts.get ⟨i, h⟩).id = (i : Int) + 1)
    (v : Int) (h1 : 1 ≤ v) (h2 : v ≤ (ts.length : Int)) :
    ∃ tk ∈ ts, tk.id = v := by
  have hlt : (v - 1).toNat < ts.length := by omega
  refine ⟨ts.get ⟨(v - 1).toNat, hlt⟩, ts.get_mem _ _, ?_⟩
  rw [hids (v - 1).toNat hlt]
  omega

/-- Rotation formula at the level of `assign_tasks`: a roster member
with a current entry, all of whose roster predecessors also have
entries, ends up mapped to `current % len(tasks) + 1`. -/
theorem assign_tasks_entry_rotated (s : AppState) (pre post : List Roommate)
    (r : Roommate) (t : Int)
    (hroster : s.roommates = pre ++ r :: post)
    (htasks : s.tasks ≠ [])
    (hpre : ∀ p ∈ pre, (dictLookup s.task_assignments p.id).isSome)
    (hr : dictLookup s.task_assignments r.id = some t) :
    dictLookup (assign_tasks s).1.task_assignments r.id
      = some (t % (s.tasks.length : Int) + 1) := by
  have hs : s.task_assignments.isEmpty = false := dictLookup_isEmpty_false _ _ _ hr
  have hn : s.tasks.length ≠ 0 := fun h => htasks (List.length_eq_zero.mp h)
  simp only [assign_tasks, hroster]
  exact assignLoop_entry_rotated _ _ hs hn pre r post t _ hpre hr

/-- Roster and task list are untouched by a rotation: `assign_tasks`
only writes `task_assignments`. -/
theorem assign_tasks_fixes_roster (s : AppState) :
    (assign_tasks s).1.roommates = s.roommates ∧ (assign_tasks s).1.tasks = s.tasks :=
  ⟨rfl, rfl⟩

/-- Policy-C demonstration roster of the spec: people P1, P2 (ids 1, 2)
and tasks with ids 1, 2, 3, before the first assignment. -/
def policyC_demo : AppState :=
  { roommates := [⟨1, "P1"⟩, ⟨2, "P2"⟩],
    tasks := [⟨1, "T1", none⟩, ⟨2, "T2", none⟩, ⟨3, "T3", none⟩],
    task_assignments := [] }

/-- Claim C1: under policy C, a person whose current assigned task id
is `t` is reassigned task id `(t mod N) + 1` by a rotation, where `N`
is the size of the non-empty task list (provided the rotation reaches
the person, i.e. everyone before them in roster order has an entry).
The concrete roster [P1,P2] / tasks [1,2,3] instance is the witness. -/
theorem claim_C1_rotation_successor (s : AppState) (pre post : List Roommate)
    (r : Roommate) (t : Int)
    (hroster : s.roommates = pre ++ r :: post)
    (htasks : s.tasks ≠ [])
    (hpre : ∀ p ∈ pre, (dictLookup s.task_assignments p.id).isSome)
    (hr : dictLookup s.task_assignments r.id = some t) :
    dictLookup (assign_tasks s).1.task_assignments r.id
      = some (t % (s.tasks.length : Int) + 1) :=
  assign_tasks_entry_rotated s pre post r t hroster htasks hpre hr

/-- Witness for C1: with roster [P1,P2] (ids 1,2) and task ids
[1,2,3], the first assignment yields P1→1, P2→2, and the next
rotation, computed by the claim's formula, yields P1→2, P2→3. -/
theorem claim_C1_rotation_successor_witness :
    dictLookup (assign_tasks policyC_demo).1.task_assignments 1 = some 1 ∧
    dictLookup (assign_tasks policyC_demo).1.task_assignments 2 = some 2 ∧
    dictLookup (assign_tasks (assign_tasks policyC_demo).1).1.task_assignments 1 = some 2 ∧
    dictLookup (assign_tasks (assign_tasks policyC_demo).1).1.task_assignments 2 = some 3 := by
  refine ⟨by decide, by decide, ?_, ?_⟩
  · have h := claim_C1_rotation_successor (assign_tasks policyC_demo).1
      [] [⟨2, "P2"⟩] ⟨1, "P1"⟩ 1 rfl (by decide) (by simp) (by decide)
    exact h.trans (by decide)
  · have h := claim_C1_rotation_successor (assign_tasks policyC_demo).1
      [⟨1, "P1"⟩] [] ⟨2, "P2"⟩ 2 rfl (by decide) (by decide) (by decide)
    exact h.trans (by decide)

/-- A roster with one person (id 1) and a single task whose id is 5:
task ids are not contiguous from 1, so policy C's successor formula
escapes the id range. -/
def gapState : AppState :=
  { roommates := [⟨1, "A"⟩],
    tasks := [⟨5, "Gap", none⟩],
    task_assignments := [] }

/-- Counterexample to C2 as stated: with the non-contiguous task list
[id 5], the rotation completes without error but assigns person 1 the
task id 1, which is present in no task — a dangling reference after a
rotation over a non-empty task list. -/
theorem claim_C2_counterexample :
    (assign_tasks gapState).2 = none ∧
    dictLookup (assign_tasks gapState).1.task_assignments 1 = some 1 ∧
    findTask gapState.tasks 1 = none ∧
    ∀ tk ∈ gapState.tasks, tk.id ≠ 1 := by decide

/-- Claim C2 (amended): when the task ids are exactly `1 .. N`
position by position, after any rotation that completes without an
exception every person in the roster has an assigned task id present
in the task list. -/
theorem claim_C2_no_dangling_contiguous (s : AppState)
    (hids : ∀ (i : Nat) (h : i < s.tasks.length), (s.tasks.get ⟨i, h⟩).id = (i : Int) + 1)
    (_htasks : s.tasks ≠ [])
    (hok : (assign_tasks s).2 = none) :
    ∀ r ∈ s.roommates,
    ∃ v, dictLookup (assign_tasks s).1.task_assignments r.id = some v ∧
      ∃ tk ∈ s.tasks, tk.id = v := by
  intro r hr
  have hcov := assignLoop_ok_covers s.task_assignments s.tasks.length s.roommates
    s.task_assignments (by simpa [assign_tasks] using hok) r hr
  obtain ⟨v, hv, h1, h2⟩ := hcov
  exact ⟨v, by simpa [assign_tasks] using hv, mem_of_contiguous_ids s.tasks hids v h1 h2⟩

/-- Witness for C2 (amended): the shipped initial state has contiguous
task ids 1..5; after the startup rotation, person 1 holds a task id
present in the task list. -/
theorem claim_C2_no_dangling_contiguous_witness :
    ∃ v, dictLookup (assign_tasks initialState).1.task_assignments 1 = some v ∧
      ∃ tk ∈ initialState.tasks, tk.id = v := by
  have h := claim_C2_no_dangling_contiguous initialState (by decide) (by decide) (by decide)
    ⟨1, "Mithilesh"⟩ (by decide)
  simpa using h

/-- A roster whose only member has id 2 (so roster position 0 and
person id disagree), with contiguous task ids 1..3 and no assignments
yet. -/
def idDemo : AppState :=
  { roommates := [⟨2, "Bob"⟩],
    tasks := [⟨1, "T1", none⟩, ⟨2, "T2", none⟩, ⟨3, "T3", none⟩],
    task_assignments := [] }

/-- Counterexample to C3 as stated: on first assignment, the person at
0-based roster position 0 (id 2) receives task id 2, not
`(0 mod 3) + 1 = 1` — the code computes the task from the person's id
(`(roommate.id - 1) % len(tasks) + 1`), not from the roster
position. -/
theorem claim_C3_counterexample :
    dictLookup (assign_tasks idDemo).1.task_assignments
      (idDemo.roommates.get ⟨0, by decide⟩).id = some 2 ∧
    some (2 : Int) ≠ some ((0 : Int) % (idDemo.tasks.length : Int) + 1) := by decide

/-- Claim C3 (amended): on first assignment (empty table, non-empty
task list), every roster member with id `p` receives the task id
`((p - 1) mod N) + 1` — the formula depends on the person's id, not on
the roster position. -/
theorem claim_C3_first_assignment_by_id (s : AppState)
    (hempty : s.task_assignments = [])
    (htasks : s.tasks ≠ [])
    (r : Roommate) (hr : r ∈ s.roommates) :
    dictLookup (assign_tasks s).1.task_assignments r.id
      = some ((r.id - 1) % (s.tasks.length : Int) + 1) := by
  have hs : s.task_assignments.isEmpty = true := by simp [hempty]
  have hn : s.tasks.length ≠ 0 := fun h => htasks (List.length_eq_zero.mp h)
  simp only [assign_tasks]
  exact assignLoop_first_assignment _ _ hs hn s.roommates r _ hr

/-- Witness for C3 (amended): the person with id 2 at roster position
0 receives task id `((2 - 1) mod 3) + 1 = 2`. -/
theorem claim_C3_first_assignment_by_id_witness :
    dictLookup (assign_tasks idDemo).1.task_assignments 2 = some 2 := by
  have h := claim_C3_first_assignment_by_id idDemo rfl (by decide) ⟨2, "Bob"⟩ (by decide)
  exact h.trans (by decide)

/-- Claim C4: with a non-empty assignment table, a non-empty task
list, and a roster member `x` with no table entry (everyone before `x`
having one), the rotation raises `KeyError(x.id)`, every person before
`x` in roster order has already been advanced to their next task id,
and `x` receives no assignment — the table is left partially
updated. -/
theorem claim_C4_keyError_partial (s : AppState) (pre post : List Roommate) (x : Roommate)
    (hroster : s.roommates = pre ++ x :: post)
    (hnonempty : s.task_assignments ≠ [])
    (htasks : s.tasks ≠ [])
    (hpre : ∀ p ∈ pre, (dictLookup s.task_assignments p.id).isSome)
    (hx : dictLookup s.task_assignments x.id = none) :
    (assign_tasks s).2 = some (PyError.keyError x.id) ∧
    (∀ p ∈ pre, ∀ t, dictLookup s.task_assignments p.id = some t →
      dictLookup (assign_tasks s).1.task_assignments p.id
        = some (t % (s.tasks.length : Int) + 1)) ∧
    dictLookup (assign_tasks s).1.task_assignments x.id = none := by
  have hs : s.task_assignments.isEmpty = false := by
    cases htab : s.task_assignments with
    | nil => exact absurd htab hnonempty
    | cons a l => rfl
  have hn : s.tasks.length ≠ 0 := fun h => htasks (List.length_eq_zero.mp h)
  have hkey := assignLoop_keyError s.task_assignments s.tasks.length hs hn pre x post
    s.task_assignments hpre hx
  refine ⟨?_, ?_, ?_⟩
  · simp only [assign_tasks, hroster]
    exact hkey.1
  · intro p hp t ht
    obtain ⟨a, b, hab⟩ := List.append_of_mem hp
    have hsplit : s.roommates = a ++ p :: (b ++ x :: post) := by
      rw [hroster, hab]
      simp
    exact assign_tasks_entry_rotated s a (b ++ x :: post) p t hsplit htasks
      (fun q hq => hpre q (by rw [hab]; exact List.mem_append_left _ hq)) ht
  · simp only [assign_tasks, hroster]
    exact hkey.2 hx

/-- A state reached after person 1 was assigned task 1 and a new
person with id 6 joined the roster with no table entry. -/
def newPersonDemo : AppState :=
  { roommates := [⟨1, "A"⟩, ⟨6, "New"⟩],
    tasks := [⟨1, "T1", none⟩, ⟨2, "T2", none⟩],
    task_assignments := [(1, 1)] }

/-- Witness for C4: rotating `newPersonDemo` raises `KeyError(6)`
after advancing person 1 from task 1 to task 2, and person 6 ends up
with no assignment. -/
theorem claim_C4_keyError_partial_witness :
    (assign_tasks newPersonDemo).2 = some (PyError.keyError 6) ∧
    dictLookup (assign_tasks newPersonDemo).1.task_assignments 1 = some 2 ∧
    dictLookup (assign_tasks newPersonDemo).1.task_assignments 6 = none := by
  have h := claim_C4_keyError_partial newPersonDemo [⟨1, "A"⟩] [] ⟨6, "New"⟩
    rfl (by decide) (by decide) (by decide) (by decide)
  refine ⟨h.1, ?_, h.2.2⟩
  have h2 := h.2.1 ⟨1, "A"⟩ (by decide) 1 (by decide)
  exact h2.trans (by decide)

/-- A non-empty roster with an empty task list. -/
def emptyTasksDemo : AppState :=
  { roommates := [⟨1, "A"⟩], tasks := [], task_assignments := [] }

/-- An entirely empty state: no roster, no tasks, no assignments. -/
def emptyAllDemo : AppState :=
  { roommates := [], tasks := [], task_assignments := [] }

/-- Counterexample to C5 as stated: invoking the rotation with zero
tasks and a non-empty roster does raise — `(roommate.id - 1) %
len(tasks)` is a division by zero. -/
theorem claim_C5_counterexample :
    (assign_tasks emptyTasksDemo).2 = some PyError.zeroDivisionError := by decide

/-- Claim C5 (amended): the rotation never fails for an empty roster
(whatever the task list, the loop body never runs and the state is
unchanged); but with an empty task list and a non-empty roster it
raises (`ZeroDivisionError` from `% len(tasks)`, or `KeyError` first
if the leading person also lacks an entry). -/
theorem claim_C5_empty_roster_safe (s : AppState) :
    (s.roommates = [] → assign_tasks s = (s, none)) ∧
    (s.tasks = [] → s.roommates ≠ [] → ((assign_tasks s).2).isSome = true) := by
  constructor
  · intro h
    have h2 : assignLoop s.task_assignments s.tasks.length s.roommates s.task_assignments
        = (s.task_assignments, none) := by rw [h]; rfl
    simp only [assign_tasks, h2]
  · intro ht hr
    cases hros : s.roommates with
    | nil => exact absurd hros hr
    | cons r rest =>
      by_cases hs : s.task_assignments.isEmpty
      · simp [assign_tasks, hros, ht, assignLoop, hs]
      · rw [Bool.not_eq_true] at hs
        simp only [assign_tasks, hros, ht, List.length_nil, assignLoop, hs]
        cases dictLookup s.task_assignments r.id <;> simp

/-- Witness for C5 (amended): the empty state rotates to itself with
no error, while one person and zero tasks makes the rotation raise. -/
theorem claim_C5_empty_roster_safe_witness :
    assign_tasks emptyAllDemo = (emptyAllDemo, none) ∧
    ((assign_tasks emptyTasksDemo).2).isSome = true :=
  ⟨(claim_C5_empty_roster_safe emptyAllDemo).1 rfl,
   (claim_C5_empty_roster_safe emptyTasksDemo).2 rfl (by decide)⟩

/-- Claim C6: adding a person whose id already exists in the roster is
rejected with HTTP 400 ("Roommate ID already exists") before any
mutation — the returned state is exactly the input state: roster and
assignment table untouched, no rotation side effect. -/
theorem claim_C6_duplicate_rejected (s : AppState) (rm : Roommate)
    (hdup : s.roommates.any (fun r => r.id == rm.id) = true) :
    add_roommate s rm = (s, some (ApiError.httpException 400 "Roommate ID already exists")) := by
  simp [add_roommate, hdup]

/-- Witness for C6: re-adding id 3 to the startup roster is rejected
with 400 and the state is returned unchanged. -/
theorem claim_C6_duplicate_rejected_witness :
    add_roommate startupState ⟨3, "X"⟩
      = (startupState, some (ApiError.httpException 400 "Roommate ID already exists")) :=
  claim_C6_duplicate_rejected startupState ⟨3, "X"⟩ (by decide)

/-- The `get_tasks` comprehension errors with `StopIteration` — the
surfaced dangling-reference failure — as soon as it meets a roommate
whose assigned task id matches no task, provided every roommate it
scans first has a table entry. -/
theorem getTasksLoop_dangling (s : AppState) :
    ∀ (rs : List Roommate) (acc : List (String × String × Option String)),
    (∀ r ∈ rs, (dictLookup s.task_assignments r.id).isSome) →
    (∃ r ∈ rs, ∃ tid, dictLookup s.task_assignments r.id = some tid ∧
      findTask s.tasks tid = none) →
    getTasksLoop s rs acc = Except.error PyError.stopIteration := by
  intro rs
  induction rs with
  | nil =>
    intro acc _ hex
    simp at hex
  | cons r rest ih =>
    intro acc hall hex
    obtain ⟨c, hc⟩ := Option.isSome_iff_exists.mp (hall r (List.mem_cons_self r rest))
    simp only [getTasksLoop, hc]
    cases hft : findTask s.tasks c with
    | none => rfl
    | some t =>
      apply ih
      · exact fun q hq => hall q (List.mem_cons_of_mem r hq)
      · obtain ⟨q, hq, tid, htid, hnone⟩ := hex
        rcases List.mem_cons.mp hq with hqr | hqrest
        · subst hqr
          rw [hc] at htid
          cases htid
          rw [hft] at hnone
          cases hnone
        · exact ⟨q, hqrest, tid, htid, hnone⟩

/-- Claim C7: whenever some roster member's assigned task id matches
no task in the task list (and the table covers the roster, so the scan
reaches the dangling entry), `get_tasks` fails with the
dangling-reference error — the `StopIteration` escaping from
`next(...)` — rather than returning an answer. -/
theorem claim_C7_dangling_surfaced (s : AppState)
    (hall : ∀ r ∈ s.roommates, (dictLookup s.task_assignments r.id).isSome)
    (hdangle : ∃ r ∈ s.roommates, ∃ tid, dictLookup s.task_assignments r.id = some tid ∧
      findTask s.tasks tid = none) :
    get_tasks s = Except.error PyError.stopIteration :=
  getTasksLoop_dangling s s.roommates [] hall hdangle

/-- Witness for C7: after rotating `gapState` (sole task id 5), person
1 is assigned task id 1, which resolves to no task, and the query
fails with the surfaced error. -/
theorem claim_C7_dangling_surfaced_witness :
    get_tasks (assign_tasks gapState).1 = Except.error PyError.stopIteration :=
  claim_C7_dangling_surfaced (assign_tasks gapState).1 (by decide)
    ⟨⟨1, "A"⟩, by decide, 1, by decide, by decide⟩

/-- Claim C8: the scheduler's trigger predicate is a pure function of
the injected clock: it returns true exactly on the dates whose weekday
is Saturday (Python weekday 5), and in particular is invariant under
shifting the date by a whole week. -/
theorem claim_C8_trigger_pure (d : Nat) :
    (is_saturday d = true ↔ pyWeekday d = 5) ∧ is_saturday (d + 7) = is_saturday d := by
  constructor
  · simp [is_saturday]
  · have h : (d + 7 + 6) % 7 = (d + 6) % 7 := by omega
    simp [is_saturday, pyWeekday, h]

/-- Claim C9: a wake cycle of the scheduler loop always completes and
hands a state to the next iteration — never an escaped exception: when
the trigger fires and the rotation raises, the exception is caught and
the loop backs off 60 seconds (keeping the partially-updated state);
when the rotation succeeds, or the trigger does not fire, the loop
sleeps the regular 3600 seconds; and the loop then continues checking
from the resulting state. -/
theorem claim_C9_scheduler_survives (d : Nat) (s : AppState) :
    ((check_saturday_and_update_tasks_cycle d s).2 = 3600 ∨
      (check_saturday_and_update_tasks_cycle d s).2 = 60) ∧
    (is_saturday d = true → ((assign_tasks s).2).isSome = true →
      check_saturday_and_update_tasks_cycle d s = ((assign_tasks s).1, 60)) ∧
    (is_saturday d = true → (assign_tasks s).2 = none →
      check_saturday_and_update_tasks_cycle d s = ((assign_tasks s).1, 3600)) ∧
    (is_saturday d = false → check_saturday_and_update_tasks_cycle d s = (s, 3600)) ∧
    (∀ (ds : List Nat), scheduler_steps (d :: ds) s
      = scheduler_steps ds (check_saturday_and_update_tasks_cycle d s).1) := by
  refine ⟨?_, ?_, ?_, ?_, fun ds => rfl⟩
  · by_cases hd : is_saturday d
    · simp only [check_saturday_and_update_tasks_cycle, hd, if_true]
      cases (assign_tasks s).2 <;> simp
    · simp [check_saturday_and_update_tasks_cycle, hd]
  · intro hd herr
    obtain ⟨e, he⟩ := Option.isSome_iff_exists.mp herr
    simp [check_saturday_and_update_tasks_cycle, hd, he]
  · intro hd herr
    simp [check_saturday_and_update_tasks_cycle, hd, herr]
  · intro hd
    simp [check_saturday_and_update_tasks_cycle, hd]

/-- Witness for C9: ordinal day 6 is a Saturday; on the state with one
person and zero tasks the rotation raises, the cycle catches it, keeps
the state the failed rotation left behind and backs off 60 seconds. -/
theorem claim_C9_scheduler_survives_witness :
    check_saturday_and_update_tasks_cycle 6 emptyTasksDemo
      = ((assign_tasks emptyTasksDemo).1, 60) :=
  (claim_C9_scheduler_survives 6 emptyTasksDemo).2.1 (by decide) (by decide)

/-- A one-person roster holding task 1 out of two tasks: the smallest
state on which double rotation is visibly not a no-op. -/
def twoTasksDemo : AppState :=
  { roommates := [⟨1, "A"⟩],
    tasks := [⟨1, "T1", none⟩, ⟨2, "T2", none⟩],
    task_assignments := [(1, 1)] }

/-- Claim C10: under policy C the rotation is not idempotent — for any
state whose roster is non-empty, whose leading person has an
assignment, and with at least two tasks, rotating twice yields a
different assignment table than rotating once. -/
theorem claim_C10_not_idempotent (s : AppState) (r : Roommate) (rest : List Roommate)
    (t : Int)
    (htasks : 2 ≤ s.tasks.length)
    (hroster : s.roommates = r :: rest)
    (hr : dictLookup s.task_assignments r.id = some t) :
    (assign_tasks (assign_tasks s).1).1.task_assignments
      ≠ (assign_tasks s).1.task_assignments := by
  have hne : s.tasks ≠ [] := by
    intro h
    rw [h] at htasks
    simp at htasks
  have h1 : dictLookup (assign_tasks s).1.task_assignments r.id
      = some (t % (s.tasks.length : Int) + 1) :=
    assign_tasks_entry_rotated s [] rest r t hroster hne (by simp) hr
  have hros1 : (assign_tasks s).1.roommates = r :: rest := by
    rw [(assign_tasks_fixes_roster s).1, hroster]
  have htasks1 : (assign_tasks s).1.tasks = s.tasks := (assign_tasks_fixes_roster s).2
  have h2 : dictLookup (assign_tasks (assign_tasks s).1).1.task_assignments r.id
      = some ((t % (s.tasks.length : Int) + 1) % ((assign_tasks s).1.tasks.length : Int) + 1) :=
    assign_tasks_entry_rotated (assign_tasks s).1 [] rest r (t % (s.tasks.length : Int) + 1)
      (by rw [hros1]; rfl) (by rw [htasks1]; exact hne) (by simp) h1
  rw [htasks1] at h2
  intro heq
  rw [heq, h1] at h2
  have hinj := Option.some.inj h2
  have hN2 : (2 : Int) ≤ (s.tasks.length : Int) := by exact_mod_cast htasks
  have h0 : (0 : Int) ≤ t % (s.tasks.length : Int) := Int.emod_nonneg t (by omega)
  have hlt : t % (s.tasks.length : Int) < (s.tasks.length : Int) :=
    Int.emod_lt_of_pos t (by omega)
  by_cases hcase : t % (s.tasks.length : Int) + 1 < (s.tasks.length : Int)
  · rw [Int.emod_eq_of_lt (by omega) hcase] at hinj
    omega
  · have heqN : t % (s.tasks.length : Int) + 1 = (s.tasks.length : Int) := by omega
    rw [heqN, Int.emod_self] at hinj
    omega

/-- Witness for C10: on `twoTasksDemo` the table after two rotations
(person 1 back on task 1) differs from the table after one rotation
(person 1 on task 2). -/
theorem claim_C10_not_idempotent_witness :
    (assign_tasks (assign_tasks twoTasksDemo).1).1.task_assignments
      ≠ (assign_tasks twoTasksDemo).1.task_assignments :=
  claim_C10_not_idempotent twoTasksDemo ⟨1, "A"⟩ [] 1 (by decide) rfl (by decide)

end TaskBackend
